import Mathlib

/-!
Shallow embedding of the shop state engine in `src/app.py` (Flask app):
categories, products, per-user carts, bans, operating mode, audit log,
and the zip-archive export/import path. Python dicts are modelled as
insertion-ordered association lists, JSON bodies as structures of
`Option` fields (absent = `none`), Python truthiness of an integer field
as "present and nonzero", prices (Python floats holding decimal prices)
as rationals, and timestamps as an abstract `Nat` supplied by the caller.
External effects (Telegram delivery, file persistence) do not touch the
in-memory state; delivery success is passed in as a boolean oracle.
-/

namespace Shop

/-- Python dict key lookup (first binding wins; dicts hold unique keys). -/
def alGet {α : Type} (m : List (Int × α)) (k : Int) : Option α :=
  (m.find? (fun p => p.1 == k)).map (fun p => p.2)

/-- Python dict assignment: overwrite in place when the key exists
(insertion order kept), otherwise append a new binding at the end. -/
def alSet {α : Type} : List (Int × α) → Int → α → List (Int × α)
  | [], k, v => [(k, v)]
  | p :: rest, k, v => if p.1 == k then (k, v) :: rest else p :: alSet rest k v

/-- Record `{id, name, icon}` of `categories`. -/
structure Category where
  id : Int
  name : String
  icon : Option String
deriving DecidableEq, Repr

/-- Record `{id, title, price, category_id, image_url, thumb_url, description}`
of `products`; `category_id` is nulled when its category is deleted. -/
structure Product where
  id : Int
  title : String
  price : ℚ
  category_id : Option Int
  image_url : String
  thumb_url : String
  description : String
deriving DecidableEq, Repr

/-- Record `{user_id, reason}` of `bans`. -/
structure Ban where
  user_id : Int
  reason : String
deriving DecidableEq, Repr

/-- Structured payload of an audit log entry (`_log_event` payload dict). -/
inductive Payload where
  | empty
  | category (c : Category)
  | categoryDeleted (id : Int)
  | product (p : Product)
  | cartAdd (product_id : Int) (qty : Int)
  | checkout (contact : String) (note : String) (items : List (Int × Int))
  | banInfo (reason : String)
  | raw (s : String)
deriving DecidableEq, Repr

/-- One audit log entry as built by `_log_event`; `ts` abstracts the
UTC ISO timestamp. -/
structure LogEntry where
  ts : Nat
  kind : String
  user_id : Option Int
  payload : Payload
deriving DecidableEq, Repr

/-- The module-level mutable state: `categories`, `products`, `carts`,
`logs`, `bans`, and `settings["mode"]`. -/
structure St where
  categories : List Category
  products : List Product
  carts : List (Int × List (Int × Int))
  logs : List LogEntry
  bans : List Ban
  mode : String
deriving DecidableEq, Repr

/-- One line of the reply of `api_cart_get` / the items list of checkout. -/
structure CartItem where
  product : Product
  qty : Int
  subtotal : ℚ
deriving DecidableEq, Repr

/-- Replies of the API handlers. `err status msg` is a
`jsonify({"ok": False, "error": msg}), status` reply; the `ok…`
constructors are the 200/201 replies carrying the handler's body. -/
inductive Resp where
  | err (status : Nat) (msg : String)
  | okTrue
  | okCategory (c : Category)
  | okProduct (p : Product)
  | okBan (b : Ban)
  | okMode (mode : String)
  | okCheckout (message : Option String) (redirect : Option String)
  | cartView (items : List CartItem) (total : ℚ)
deriving DecidableEq, Repr

/-- Python `str.strip()` with no argument: drop whitespace from both
ends (structurally recursive so that concrete runs reduce). -/
def pyStrip (s : String) : String :=
  String.mk (((s.toList.dropWhile Char.isWhitespace).reverse.dropWhile
    Char.isWhitespace).reverse)

/-- Python truthiness of a JSON integer field: present and nonzero. -/
def truthyInt : Option Int → Bool
  | none => false
  | some n => n != 0

/-- Model of `int(body.get("qty") or 1)`: a missing or zero (falsy) qty becomes 1. -/
def qtyOfBody : Option Int → Int
  | none => 1
  | some q => if q == 0 then 1 else q

/-- Predicate `_is_banned` for an integer user id (the `None` branch never fires in
the handlers, which always pass `int(user_id)`). -/
def isBanned (bans : List Ban) (uid : Int) : Bool :=
  bans.any (fun b => b.user_id == uid)

/-- Lookup `_get_product`: first product with the given id. -/
def getProduct (products : List Product) (pid : Int) : Option Product :=
  products.find? (fun p => p.id == pid)

/-- Allocator `_next_id`: `max((item["id"]), default=0) + 1`. -/
def nextId (ids : List Int) : Int :=
  (match ids with
   | [] => 0
   | x :: xs => xs.foldl max x) + 1

def LOG_LIMIT : Nat := 200

/-- Model of `_log_event` without the timestamp/result plumbing: append the entry,
then `pop(0)` once if the length exceeds `LOG_LIMIT`. -/
def logEvent (logs : List LogEntry) (e : LogEntry) : List LogEntry :=
  let l := logs ++ [e]
  if l.length > LOG_LIMIT then l.drop 1 else l

/-- JSON body of `POST /api/cart/add`. -/
structure AddReq where
  user_id : Option Int
  product_id : Option Int
  qty : Option Int
deriving DecidableEq, Repr

/-- Handler `api_cart_add`. -/
def apiCartAdd (ts : Nat) (r : AddReq) (s : St) : Resp × St :=
  let qty := qtyOfBody r.qty
  if !truthyInt r.user_id || !truthyInt r.product_id then
    (.err 400 "user_id and product_id required", s)
  else
    let uid := r.user_id.getD 0
    let pid := r.product_id.getD 0
    if isBanned s.bans uid then (.err 403 "banned", s)
    else
      match getProduct s.products pid with
      | none => (.err 404 "product not found", s)
      | some _ =>
        let cart := (alGet s.carts uid).getD []
        let cart' := alSet cart pid ((alGet cart pid).getD 0 + max 1 qty)
        let entry : LogEntry := ⟨ts, "cart_add", some uid, .cartAdd pid qty⟩
        (.okTrue, { s with carts := alSet s.carts uid cart',
                           logs := logEvent s.logs entry })

/-- The item/total accumulation loop shared by `api_cart_get` and
`api_cart_checkout`: resolve each line's product, silently drop lines
whose product is gone, collect `{product, qty, subtotal}` rows in cart
order and sum the subtotals. -/
def cartItems (products : List Product) : List (Int × Int) → List CartItem × ℚ
  | [] => ([], 0)
  | (pid, qty) :: rest =>
    match getProduct products pid with
    | none => cartItems products rest
    | some p =>
      let sub : ℚ := p.price * (qty : ℚ)
      let t := cartItems products rest
      (⟨p, qty, sub⟩ :: t.1, sub + t.2)

/-- Handler `api_cart_get` (user id comes from the URL path, no truthiness check). -/
def apiCartGet (uid : Int) (s : St) : Resp × St :=
  let t := cartItems s.products ((alGet s.carts uid).getD [])
  (.cartView t.1 t.2, s)

/-- JSON body of `POST /api/cart/clear`. -/
structure ClearReq where
  user_id : Option Int
deriving DecidableEq, Repr

/-- Handler `api_cart_clear`. -/
def apiCartClear (ts : Nat) (r : ClearReq) (s : St) : Resp × St :=
  if !truthyInt r.user_id then (.err 400 "user_id required", s)
  else
    let uid := r.user_id.getD 0
    if isBanned s.bans uid then (.err 403 "banned", s)
    else
      let entry : LogEntry := ⟨ts, "cart_clear", some uid, .empty⟩
      (.okTrue, { s with carts := alSet s.carts uid [],
                         logs := logEvent s.logs entry })

/-- One hex digit, uppercase (as `urllib.parse.quote_plus` emits). -/
def hexDigit (n : Nat) : Char :=
  if n < 10 then Char.ofNat (48 + n) else Char.ofNat (55 + n)

/-- Two-digit uppercase hex of a byte. -/
def hexByte (b : UInt8) : String :=
  String.mk [hexDigit (b.toNat / 16), hexDigit (b.toNat % 16)]

/-- Model of `urllib.parse.quote_plus`: over the UTF-8 bytes, keep ASCII
alphanumerics and `-._~`, turn a space into `+`, percent-encode the rest. -/
def quotePlus (s : String) : String :=
  String.join (s.toUTF8.toList.map (fun b =>
    if (48 ≤ b.toNat && b.toNat ≤ 57) || (65 ≤ b.toNat && b.toNat ≤ 90)
        || (97 ≤ b.toNat && b.toNat ≤ 122)
        || b.toNat = 45 || b.toNat = 46 || b.toNat = 95 || b.toNat = 126 then
      String.singleton (Char.ofNat b.toNat)
    else if b.toNat = 32 then "+"
    else "%" ++ hexByte b))

/-- Python `int()` applied to a float/decimal: truncation toward zero
(the summary renders subtotals and the total this way). -/
def pyInt (q : ℚ) : Int :=
  if q < 0 then ⌈q⌉ else ⌊q⌋

/-- JSON body of `POST /api/cart/checkout`. -/
structure CheckoutReq where
  user_id : Option Int
  contact : Option String
  note : Option String
  tg_username : Option String
  tg_name : Option String
deriving DecidableEq, Repr

/-- The order-summary lines built by `api_cart_checkout`. The Russian
literals of the source are transliterated to ASCII here; their content
plays no role in any property, only the structure of the summary does. -/
def checkoutLines (mode nick : String) (uidRaw : Int)
    (contact note tg_username tg_name : String)
    (items : List CartItem) (total : ℚ) : List String :=
  let hdr : List String :=
    if mode == "samopis" then
      (if nick != "" then ["Dobrogo vremeni sutok, " ++ nick ++ "!"]
       else ["Dobrogo vremeni sutok!"])
      ++ ["Hotel by priobresti sleduyushchie tovary:"]
    else
      ["Novyj zakaz",
       "user_id: " ++ toString uidRaw,
       if tg_username != "" then "tg: @" ++ tg_username else "tg: ne ukazal"]
      ++ (if tg_name != "" then ["imya: " ++ tg_name] else [])
      ++ ["kontakt: " ++ (if contact != "" then contact else "-")]
      ++ (if note != "" then ["Kommentarij: " ++ note] else [])
  hdr ++ ["Pozicij:"]
    ++ items.map (fun row =>
        "- " ++ row.product.title ++ " x" ++ toString row.qty
          ++ " = " ++ toString (pyInt row.subtotal) ++ "R")
    ++ ["Itogo: " ++ toString (pyInt total) ++ "R"]

/-- Handler `api_cart_checkout`. `nick` is `SAMOPIS_NICK` (already `lstrip("@")`-ed),
`adminChatId` is `ADMIN_CHAT_ID`, and `notifyOk` is the outcome of the
external `notify_admin` delivery, whose failure only logs a warning. -/
def apiCartCheckout (ts : Nat) (nick : String) (adminChatId : Option Int)
    (notifyOk : Bool) (r : CheckoutReq) (s : St) : Resp × St :=
  let contact := pyStrip (r.contact.getD "")
  let note := pyStrip (r.note.getD "")
  let tg_username := pyStrip (r.tg_username.getD "")
  let tg_name := pyStrip (r.tg_name.getD "")
  if !truthyInt r.user_id then (.err 400 "user_id required", s)
  else
    let uid := r.user_id.getD 0
    if isBanned s.bans uid then (.err 403 "banned", s)
    else
      let cart := (alGet s.carts uid).getD []
      let t := cartItems s.products cart
      if t.1.isEmpty then (.err 400 "cart_empty", s)
      else
        let entry : LogEntry := ⟨ts, "checkout", some uid, .checkout contact note cart⟩
        let logs' := logEvent s.logs entry
        let mode := s.mode
        let lines := checkoutLines mode nick uid contact note tg_username tg_name t.1 t.2
        let resp : Resp :=
          if mode == "samopis" then
            if nick != "" then
              .okCheckout (some "Otkrojte dialog dlya oformleniya.")
                (some ("https://t.me/" ++ nick ++ "?text="
                        ++ quotePlus (String.intercalate "\n" lines)))
            else .okCheckout none none
          else
            -- notify_admin runs when ADMIN_CHAT_ID is set; a failed delivery
            -- only emits a server-side warning and never alters state
            let _delivered := if adminChatId.isSome then notifyOk else false
            .okCheckout (some "Zakaz prinyat. Menedzher svyazhetsya v Telegram.") none
        (resp, { s with carts := alSet s.carts uid [], logs := logs' })

/-- JSON body of `POST /api/categories` and `PATCH /api/categories/<id>`. -/
structure CatReq where
  name : Option String
  icon : Option String
deriving DecidableEq, Repr

/-- Handler `api_categories`, POST branch. -/
def apiCategoriesPost (ts : Nat) (r : CatReq) (s : St) : Resp × St :=
  let name := pyStrip (r.name.getD "")
  let icon0 := pyStrip (r.icon.getD "")
  let icon := if icon0 == "" then none else some icon0
  if name == "" then (.err 400 "name required", s)
  else
    let c : Category := ⟨nextId (s.categories.map (fun c => c.id)), name, icon⟩
    (.okCategory c, { s with categories := s.categories ++ [c],
                             logs := logEvent s.logs ⟨ts, "category_created", none, .category c⟩ })

/-- Handler `api_category_update`, PATCH branch. -/
def apiCategoryPatch (ts : Nat) (cid : Int) (r : CatReq) (s : St) : Resp × St :=
  match s.categories.find? (fun c => c.id == cid) with
  | none => (.err 404 "category not found", s)
  | some c =>
    let name := pyStrip (r.name.getD "")
    let icon0 := pyStrip (r.icon.getD "")
    let c' : Category := { c with name := if name != "" then name else c.name,
                                  icon := if icon0 != "" then some icon0 else none }
    (.okCategory c',
     { s with categories := s.categories.map (fun x => if x.id == cid then c' else x),
              logs := logEvent s.logs ⟨ts, "category_updated", none, .category c'⟩ })

/-- Handler `api_category_update`, DELETE branch: remove the category and null
`category_id` on every product that referenced it. -/
def apiCategoryDelete (ts : Nat) (cid : Int) (s : St) : Resp × St :=
  if (s.categories.find? (fun c => c.id == cid)).isSome then
    let cats' := s.categories.filter (fun c => !(c.id == cid))
    let prods' := s.products.map (fun p =>
      if p.category_id == some cid then { p with category_id := none } else p)
    (.okTrue, { s with categories := cats', products := prods',
                       logs := logEvent s.logs ⟨ts, "category_deleted", none, .categoryDeleted cid⟩ })
  else (.err 404 "category not found", s)

/-- JSON body of `POST /api/products`. -/
structure ProdReq where
  title : Option String
  price : Option ℚ
  category_id : Option Int
  image_url : Option String
  thumb_url : Option String
  description : Option String
deriving DecidableEq, Repr

/-- Handler `api_products`, POST branch. `mainPath`/`thumbPath` are the result of
the external `_download_and_resize` (image fetch + resize); its failure is
non-fatal and leaves the request's image fields in place. -/
def apiProductsPost (ts : Nat) (mainPath thumbPath : Option String)
    (r : ProdReq) (s : St) : Resp × St :=
  let title := pyStrip (r.title.getD "")
  let image_url0 := pyStrip (r.image_url.getD "")
  let image_url := if image_url0 == "" then "/static/img/placeholder.svg" else image_url0
  let thumb_url := pyStrip (r.thumb_url.getD "")
  let description := pyStrip (r.description.getD "")
  if title == "" || r.price.isNone || r.category_id.isNone then
    (.err 400 "title, price, category_id required", s)
  else
    let p0 : Product := ⟨nextId (s.products.map (fun p => p.id)), title,
                         r.price.getD 0, some (r.category_id.getD 0),
                         image_url, thumb_url, description⟩
    let p1 := match mainPath with | some m => { p0 with image_url := m } | none => p0
    let p2 := match thumbPath with | some t => { p1 with thumb_url := t } | none => p1
    let p3 := if p2.thumb_url == "" then { p2 with thumb_url := p2.image_url } else p2
    (.okProduct p3, { s with products := s.products ++ [p3],
                             logs := logEvent s.logs ⟨ts, "product_created", none, .product p3⟩ })

/-- JSON body of `POST /api/admin/bans`. -/
structure BanReq where
  user_id : Option Int
  reason : Option String
deriving DecidableEq, Repr

/-- Handler `api_admin_bans`, POST branch (`int(None)` raises, caught as the
"user_id required" reply; the integer 0 passes this check). -/
def apiBansPost (ts : Nat) (r : BanReq) (s : St) : Resp × St :=
  match r.user_id with
  | none => (.err 400 "user_id required", s)
  | some uid =>
    let reason := pyStrip (r.reason.getD "")
    if s.bans.any (fun b => b.user_id == uid) then (.err 400 "already banned", s)
    else
      let b : Ban := ⟨uid, reason⟩
      (.okBan b, { s with bans := s.bans ++ [b],
                          logs := logEvent s.logs ⟨ts, "user_banned", some uid, .banInfo reason⟩ })

/-- Handler `api_admin_bans_delete`. -/
def apiBansDelete (ts : Nat) (uid : Int) (s : St) : Resp × St :=
  let bans' := s.bans.filter (fun b => !(b.user_id == uid))
  if bans'.length == s.bans.length then (.err 404 "not found", s)
  else (.okTrue, { s with bans := bans',
                          logs := logEvent s.logs ⟨ts, "user_unbanned", some uid, .empty⟩ })

/-- JSON body of `POST /api/admin/mode`. -/
structure ModeReq where
  mode : Option String
deriving DecidableEq, Repr

/-- Handler `api_admin_mode`, POST branch. The source calls no `_log_event` here:
it writes `settings["mode"]` and persists settings only. -/
def apiModePost (r : ModeReq) (s : St) : Resp × St :=
  let m := pyStrip (r.mode.getD "")
  if !(m == "samootsos" || m == "samopis") then (.err 400 "invalid_mode", s)
  else (.okMode m, { s with mode := m })

/-- One state-touching API request (the handlers over the shared
module-level state; external inputs such as the image-resize result, the
configured nick/admin chat and the delivery outcome ride along). -/
inductive Req where
  | catPost (r : CatReq)
  | catPatch (cid : Int) (r : CatReq)
  | catDelete (cid : Int)
  | prodPost (mainPath thumbPath : Option String) (r : ProdReq)
  | cartAdd (r : AddReq)
  | cartGet (uid : Int)
  | cartClear (r : ClearReq)
  | checkout (nick : String) (adminChatId : Option Int) (notifyOk : Bool) (r : CheckoutReq)
  | banPost (r : BanReq)
  | banDelete (uid : Int)
  | modePost (r : ModeReq)
deriving DecidableEq, Repr

/-- Dispatch one request against the state. -/
def applyReq (ts : Nat) : Req → St → Resp × St
  | .catPost r, s => apiCategoriesPost ts r s
  | .catPatch cid r, s => apiCategoryPatch ts cid r s
  | .catDelete cid, s => apiCategoryDelete ts cid s
  | .prodPost mp tp r, s => apiProductsPost ts mp tp r s
  | .cartAdd r, s => apiCartAdd ts r s
  | .cartGet uid, s => apiCartGet uid s
  | .cartClear r, s => apiCartClear ts r s
  | .checkout nick adm ok r, s => apiCartCheckout ts nick adm ok r s
  | .banPost r, s => apiBansPost ts r s
  | .banDelete uid, s => apiBansDelete ts uid s
  | .modePost r, s => apiModePost r s

/-- Run a sequence of (timestamped) requests, keeping only the state. -/
def applySeq : List (Nat × Req) → St → St
  | [], s => s
  | (ts, q) :: rest, s => applySeq rest (applyReq ts q s).2

/-- One member of an uploaded zip archive: `ZipInfo.filename` plus the
member's bytes (abstracted as a string). `ZipInfo.is_dir()` is, as in
`zipfile`, "the filename ends with a slash". -/
structure ZipMember where
  name : String
  content : String
deriving DecidableEq, Repr

/-- Split a character list at every occurrence of `c` (the pieces, in
order, separators dropped). -/
def splitOnChar (c : Char) : List Char → List (List Char)
  | [] => [[]]
  | x :: xs =>
    if x == c then [] :: splitOnChar c xs
    else match splitOnChar c xs with
      | [] => [[x]]
      | h :: t => (x :: h) :: t

/-- Check `name.startswith("/")`: the first character is a slash. -/
def startsWithSlash (name : String) : Bool :=
  match name.toList with
  | [] => false
  | c :: _ => c == '/'

/-- Check `name.endswith("/")` / `ZipInfo.is_dir()`: the last character is a
slash. -/
def endsWithSlash (name : String) : Bool :=
  name.toList.getLast? == some '/'

/-- Model of `pathlib.PurePath(name).parts` without any root element: split on
`/`, drop empty and single-dot segments (pathlib normalizes those away;
the root `/` of an absolute name is never `..`, so dropping it does not
change the parent-segment membership test). -/
def pathParts (name : String) : List String :=
  ((splitOnChar '/' name.toList).map String.mk).filter (fun p => p != "" && p != ".")

/-- The loop-top skip of `_safe_extract`:
`not name or name.endswith("/") and len(name.strip("/")) == 0`
(`and` binds tighter than `or`); `len(name.strip("/")) == 0` says every
character of `name` is a slash. -/
def skipMember (name : String) : Bool :=
  name == "" || (endsWithSlash name && name.toList.all (fun c => c == '/'))

/-- Check `name.startswith("/") or ".." in Path(name).parts`. -/
def unsafeName (name : String) : Bool :=
  startsWithSlash name || (pathParts name).contains ".."

/-- A file written during extraction: absolute destination path segments
and content. Paths are segment lists; the data root is itself a segment
list, and `resolve()` on the symlink-free model filesystem is
concatenation of the root with the member's normalized parts. -/
structure FileWrite where
  path : List String
  content : String
deriving DecidableEq, Repr

/-- A member the extractor rejects: not skipped, and either an unsafe
name or a resolved destination outside the data root. -/
def violatingMember (root : List String) (m : ZipMember) : Bool :=
  !skipMember m.name
    && (unsafeName m.name || !(root.isPrefixOf (root ++ pathParts m.name)))

/-- Model of `_safe_extract`, processing members in archive order over `acc`, the
files already written: skip blank / all-slash names, raise `ValueError`
(the ArchiveError) on an absolute path, a `..` segment, or a resolved
destination not under the data root, create directory members without
content, and otherwise write the member's bytes to its destination.
`.ok` carries all writes, `.error` the writes done before the abort. -/
def safeExtractAux (root : List String) :
    List ZipMember → List FileWrite → Except (List FileWrite) (List FileWrite)
  | [], acc => .ok acc
  | m :: ms, acc =>
    if skipMember m.name then safeExtractAux root ms acc
    else if unsafeName m.name then .error acc
    else if !(root.isPrefixOf (root ++ pathParts m.name)) then .error acc
    else if endsWithSlash m.name then safeExtractAux root ms acc
    else safeExtractAux root ms (acc ++ [⟨root ++ pathParts m.name, m.content⟩])

/-- Run of `_safe_extract` on a whole archive, starting from nothing written. -/
def safeExtract (root : List String) (ms : List ZipMember) :
    Except (List FileWrite) (List FileWrite) :=
  safeExtractAux root ms []

/-- The files a list of members would write when none of them violates:
non-directory, non-skipped members in order. -/
def extractWrites (root : List String) : List ZipMember → List FileWrite
  | [] => []
  | m :: ms =>
    if skipMember m.name then extractWrites root ms
    else if endsWithSlash m.name then extractWrites root ms
    else ⟨root ++ pathParts m.name, m.content⟩ :: extractWrites root ms

/-- Handler `api_admin_data_upload` past the admin gate and file-present check:
every existing child of the data root is deleted first (the
`unlink`/`rmtree` loop), then `_safe_extract` runs; an extraction error
answers 400 `extract_failed`, leaving whatever was already extracted.
Returns (success, the data root's file set afterwards); `existing`, the
prior contents, is erased up front either way. -/
def dataUpload (root : List String) (_existing : List FileWrite)
    (archive : List ZipMember) : Bool × List FileWrite :=
  match safeExtract root archive with
  | .ok ws => (true, ws)
  | .error ws => (false, ws)

/-! ## Helper definitions and lemmas -/

/-- The cart lines that survive product resolution, with their rows:
drop a line when its product is gone, otherwise build the
`{product, qty, subtotal = price * qty}` row, in cart order. -/
def survivors (products : List Product) (cart : List (Int × Int)) : List CartItem :=
  cart.filterMap (fun pq =>
    (getProduct products pq.1).map (fun p => ⟨p, pq.2, p.price * (pq.2 : ℚ)⟩))

/-- A sequence of `api_cart_add` calls by one user for one product with
the requested quantities, in order. -/
def addMany (ts : Nat) (uid pid : Int) (qs : List Int) (s : St) : St :=
  qs.foldl (fun s q => (apiCartAdd ts ⟨some uid, some pid, some q⟩ s).2) s

/-- A small concrete store used to instantiate the theorems: one
category, one product (id 1, price 10), user 42 with a live cart line,
user 7 with a stale line (product 99 does not exist), user 5 banned. -/
def st1 : St :=
  { categories := [⟨1, "Shoes", none⟩],
    products := [⟨1, "X", 10, some 1, "/static/img/placeholder.svg",
                  "/static/img/placeholder.svg", ""⟩],
    carts := [(42, [(1, 2)]), (7, [(99, 1)])],
    logs := [],
    bans := [⟨5, "spam"⟩],
    mode := "samootsos" }

/-- A store in which user id 0 holds a ban record (the admin ban
endpoint accepts 0: it only applies `int(...)`, no truthiness test). -/
def stBan0 : St :=
  { categories := [], products := [⟨1, "X", 10, none, "", "", ""⟩],
    carts := [], logs := [], bans := [⟨0, "abuse"⟩], mode := "samootsos" }

/-- Whether a reply is a success (not an `{"ok": False, "error": …}`
failure with an error status). -/
def respOk : Resp → Bool
  | .err _ _ => false
  | _ => true

/-- The requests that mutate aggregate state when they succeed: all but
the read-only cart get and the mode set (which mutates `settings` only). -/
def isMutReq : Req → Bool
  | .cartGet _ => false
  | .modePost _ => false
  | _ => true

/-- A throwaway log entry for instantiating the ring-buffer theorems. -/
def eStub : LogEntry := ⟨0, "k", none, .empty⟩

/-- The resolved data root of the extraction model. -/
def dataRoot : List String := ["srv", "data"]

/-- A two-member archive: a harmless file followed by a traversal
attempt. -/
def archBad : List ZipMember := [⟨"a.txt", "x"⟩, ⟨"../evil.txt", "y"⟩]

theorem alGet_alSet_self {α : Type} (m : List (Int × α)) (k : Int) (v : α) :
    alGet (alSet m k v) k = some v := by
  induction m with
  | nil => simp [alGet, alSet]
  | cons p rest ih =>
    by_cases h : p.1 == k
    · simp [alSet, h, alGet, List.find?]
    · simp only [alSet, h, if_false]
      simpa [alGet, List.find?, h] using ih

theorem cartItems_eq (products : List Product) (cart : List (Int × Int)) :
    cartItems products cart =
      (survivors products cart,
       ((survivors products cart).map (fun it => it.subtotal)).sum) := by
  induction cart with
  | nil => simp [cartItems, survivors]
  | cons pq rest ih =>
    cases h : getProduct products pq.1 with
    | none => simp [cartItems, survivors, h, ih]
    | some p => simp [cartItems, survivors, h, ih]

theorem cartItems_total_zero (products : List Product) (cart : List (Int × Int))
    (h : (cartItems products cart).1 = []) : (cartItems products cart).2 = 0 := by
  rw [cartItems_eq] at h ⊢
  simp only at h
  simp [h]


theorem max_one_qtyOfBody (q : Int) : max 1 (qtyOfBody (some q)) = max 1 q := by
  rcases eq_or_ne q 0 with h | h
  · subst h; decide
  · simp [qtyOfBody, h]

theorem apiCartAdd_step (ts : Nat) (uid pid q : Int) (s : St)
    (huid : uid ≠ 0) (hpid : pid ≠ 0)
    (hban : isBanned s.bans uid = false)
    (hprod : (getProduct s.products pid).isSome = true) :
    (apiCartAdd ts ⟨some uid, some pid, some q⟩ s).2.products = s.products
    ∧ (apiCartAdd ts ⟨some uid, some pid, some q⟩ s).2.bans = s.bans
    ∧ alGet ((alGet (apiCartAdd ts ⟨some uid, some pid, some q⟩ s).2.carts uid).getD []) pid
        = some ((alGet ((alGet s.carts uid).getD []) pid).getD 0 + max 1 q) := by
  obtain ⟨p, hp⟩ := Option.isSome_iff_exists.1 hprod
  have hu : (uid != 0) = true := by simpa using huid
  have hq : (pid != 0) = true := by simpa using hpid
  simp [apiCartAdd, truthyInt, hu, hq, hban, hp, alGet_alSet_self, max_one_qtyOfBody]

theorem addMany_line (ts : Nat) (uid pid : Int) (qs : List Int) (s : St)
    (huid : uid ≠ 0) (hpid : pid ≠ 0)
    (hban : isBanned s.bans uid = false)
    (hprod : (getProduct s.products pid).isSome = true) :
    (addMany ts uid pid qs s).products = s.products
    ∧ (addMany ts uid pid qs s).bans = s.bans
    ∧ alGet ((alGet (addMany ts uid pid qs s).carts uid).getD []) pid
        = (if qs.isEmpty then alGet ((alGet s.carts uid).getD []) pid
           else some ((alGet ((alGet s.carts uid).getD []) pid).getD 0
                        + (qs.map (fun q => max 1 q)).sum)) := by
  induction qs generalizing s with
  | nil => simp [addMany]
  | cons q rest ih =>
    obtain ⟨hp, hb, hline⟩ := apiCartAdd_step ts uid pid q s huid hpid hban hprod
    set s' := (apiCartAdd ts ⟨some uid, some pid, some q⟩ s).2 with hs'
    have hban' : isBanned s'.bans uid = false := by rw [hb]; exact hban
    have hprod' : (getProduct s'.products pid).isSome = true := by rw [hp]; exact hprod
    obtain ⟨ihp, ihb, ihline⟩ := ih s' hban' hprod'
    have hstep : addMany ts uid pid (q :: rest) s = addMany ts uid pid rest s' := by
      simp [addMany]
    refine ⟨by rw [hstep, ihp, hp], by rw [hstep, ihb, hb], ?_⟩
    rw [hstep, ihline]
    cases rest with
    | nil => simp [hline]
    | cons q2 rest2 =>
      simp only [List.isEmpty_cons, if_false, hline, Option.getD_some, List.map_cons,
        List.sum_cons, Bool.false_eq_true]
      congr 1
      ring


/-! ## Claim theorems -/

/-- C6: for every user, cart `get` returns exactly the cart lines whose
product id resolves to an existing product (lines whose product was
removed never appear — `survivors` drops them), each surviving row is
built with `subtotal = price * qty`, the returned total is the sum of
those subtotals, and the state is returned unchanged. -/
theorem C6_cart_get_survivors_and_total (uid : Int) (s : St) :
    apiCartGet uid s =
      (.cartView (survivors s.products ((alGet s.carts uid).getD []))
        (((survivors s.products ((alGet s.carts uid).getD [])).map
            (fun it => it.subtotal)).sum), s) := by
  simp [apiCartGet, cartItems_eq]

/-- C10: for cart add, clear, and checkout, a body whose `user_id` is the
integer 0 (or, for add, whose `product_id` is 0) is rejected with the
same "required" ValidationError reply, state untouched, as a body
omitting the field — presence is tested by truthiness — so user id 0 can
never create, modify, or check out a cart through these endpoints. -/
theorem C10_zero_id_is_missing_id : ∀ (ts : Nat) (s : St) (pid q uid' : Option Int)
    (nick : String) (adm : Option Int) (nOk : Bool) (c n tu tn : Option String),
    (apiCartAdd ts ⟨some 0, pid, q⟩ s = (.err 400 "user_id and product_id required", s)
      ∧ apiCartAdd ts ⟨some 0, pid, q⟩ s = apiCartAdd ts ⟨none, pid, q⟩ s)
    ∧ apiCartAdd ts ⟨uid', some 0, q⟩ s = (.err 400 "user_id and product_id required", s)
    ∧ (apiCartClear ts ⟨some 0⟩ s = (.err 400 "user_id required", s)
      ∧ apiCartClear ts ⟨some 0⟩ s = apiCartClear ts ⟨none⟩ s)
    ∧ (apiCartCheckout ts nick adm nOk ⟨some 0, c, n, tu, tn⟩ s
          = (.err 400 "user_id required", s)
      ∧ apiCartCheckout ts nick adm nOk ⟨some 0, c, n, tu, tn⟩ s
          = apiCartCheckout ts nick adm nOk ⟨none, c, n, tu, tn⟩ s) := by
  intros
  refine ⟨⟨?_, ?_⟩, ?_, ⟨?_, ?_⟩, ?_, ?_⟩ <;>
    simp [apiCartAdd, apiCartClear, apiCartCheckout, truthyInt]

/-- C2: a checkout by a non-banned user whose cart has at least one
surviving line sets the user's cart to empty before returning, for every
operating mode (part of `s`), every configured nick, every admin chat id
and every delivery outcome. -/
theorem C2_checkout_always_clears_cart (ts : Nat) (nick : String)
    (adm : Option Int) (nOk : Bool) (r : CheckoutReq) (s : St) (uid : Int)
    (huser : r.user_id = some uid) (huid : uid ≠ 0)
    (hban : isBanned s.bans uid = false)
    (hitems : (cartItems s.products ((alGet s.carts uid).getD [])).1 ≠ []) :
    alGet (apiCartCheckout ts nick adm nOk r s).2.carts uid = some [] := by
  obtain ⟨a, l, hcons⟩ := List.exists_cons_of_ne_nil hitems
  have hbne : (uid != 0) = true := by simpa using huid
  simp only [apiCartCheckout, huser, truthyInt, hbne, Bool.not_true, Bool.false_eq_true,
    if_false, Option.getD_some, hban, hcons, List.isEmpty_cons]
  simpa using alGet_alSet_self s.carts uid []

/-- C3: a checkout by a non-banned user whose cart has no surviving line
(empty or fully stale) answers the EmptyCart error `cart_empty` with the
whole state unchanged; in particular the cart reads back as empty
(no items, zero total). -/
theorem C3_checkout_empty_cart_error (ts : Nat) (nick : String)
    (adm : Option Int) (nOk : Bool) (r : CheckoutReq) (s : St) (uid : Int)
    (huser : r.user_id = some uid) (huid : uid ≠ 0)
    (hban : isBanned s.bans uid = false)
    (hitems : (cartItems s.products ((alGet s.carts uid).getD [])).1 = []) :
    apiCartCheckout ts nick adm nOk r s = (.err 400 "cart_empty", s)
    ∧ apiCartGet uid s = (.cartView [] 0, s) := by
  have htot := cartItems_total_zero s.products ((alGet s.carts uid).getD []) hitems
  have hbne : (uid != 0) = true := by simpa using huid
  constructor
  · simp only [apiCartCheckout, huser, truthyInt, hbne, Bool.not_true, Bool.false_eq_true,
      if_false, Option.getD_some, hban, hitems, List.isEmpty_nil, if_true]
  · simp [apiCartGet, hitems, htot]

theorem C2_checkout_always_clears_cart_witness :
    (isBanned st1.bans 42 = false
      ∧ (cartItems st1.products ((alGet st1.carts 42).getD [])).1 ≠ [])
    ∧ alGet (apiCartCheckout 0 "" none true ⟨some 42, none, none, none, none⟩ st1).2.carts 42
        = some [] :=
  ⟨⟨by decide, by decide⟩,
   C2_checkout_always_clears_cart 0 "" none true ⟨some 42, none, none, none, none⟩ st1 42 rfl
     (by decide) (by decide) (by decide)⟩

theorem C3_checkout_empty_cart_error_witness :
    (isBanned st1.bans 7 = false
      ∧ (cartItems st1.products ((alGet st1.carts 7).getD [])).1 = [])
    ∧ (apiCartCheckout 0 "" none true ⟨some 7, none, none, none, none⟩ st1
        = (.err 400 "cart_empty", st1)
      ∧ apiCartGet 7 st1 = (.cartView [] 0, st1)) :=
  ⟨⟨by decide, by decide⟩,
   C3_checkout_empty_cart_error 0 "" none true ⟨some 7, none, none, none, none⟩ st1 7 rfl
     (by decide) (by decide) (by decide)⟩

/-- C7: a sequence of add calls by one non-banned user for one existing
product, starting with no line for it, leaves the line's quantity at the
sum of the clamped (`max 1`) requested quantities: non-positive requests
count as 1 (a zero qty is already turned into 1 by the `or 1` default,
which coincides with the clamp), positive ones as themselves. -/
theorem C7_add_sums_clamped_quantities (ts : Nat) (uid pid : Int)
    (qs : List Int) (s : St)
    (huid : uid ≠ 0) (hpid : pid ≠ 0)
    (hban : isBanned s.bans uid = false)
    (hprod : (getProduct s.products pid).isSome = true)
    (hline : alGet ((alGet s.carts uid).getD []) pid = none)
    (hqs : qs ≠ []) :
    alGet ((alGet (addMany ts uid pid qs s).carts uid).getD []) pid
      = some ((qs.map (fun q => max 1 q)).sum) := by
  obtain ⟨-, -, h3⟩ := addMany_line ts uid pid qs s huid hpid hban hprod
  rw [h3]
  cases qs with
  | nil => exact absurd rfl hqs
  | cons q rest => simp [hline]

theorem C7_add_sums_clamped_quantities_witness :
    ((100 : Int) ≠ 0 ∧ (1 : Int) ≠ 0
      ∧ isBanned st1.bans 100 = false
      ∧ (getProduct st1.products 1).isSome = true
      ∧ alGet ((alGet st1.carts 100).getD []) 1 = none
      ∧ ([(-2 : Int), 0, 3] : List Int) ≠ [])
    ∧ alGet ((alGet (addMany 0 100 1 [-2, 0, 3] st1).carts 100).getD []) 1
        = some 5 :=
  ⟨⟨by decide, by decide, by decide, by decide, by decide, by decide⟩, by
    rw [C7_add_sums_clamped_quantities 0 100 1 [-2, 0, 3] st1 (by decide) (by decide)
      (by decide) (by decide) (by decide) (by decide)]
    decide⟩


/-- C5 counterexample: user id 0 currently has a ban record, yet cart
add, clear, and checkout reject it with the "required" ValidationError
replies and never with the Forbidden "banned" reply, so the banned user
id 0 is not rejected uniformly with Forbidden as the claim states. -/
theorem C5_counterexample_banned_zero :
    isBanned stBan0.bans 0 = true
    ∧ apiCartAdd 0 ⟨some 0, some 1, some 1⟩ stBan0
        = (.err 400 "user_id and product_id required", stBan0)
    ∧ (apiCartAdd 0 ⟨some 0, some 1, some 1⟩ stBan0).1 ≠ .err 403 "banned"
    ∧ apiCartClear 0 ⟨some 0⟩ stBan0 = (.err 400 "user_id required", stBan0)
    ∧ (apiCartClear 0 ⟨some 0⟩ stBan0).1 ≠ .err 403 "banned"
    ∧ apiCartCheckout 0 "" none true ⟨some 0, none, none, none, none⟩ stBan0
        = (.err 400 "user_id required", stBan0)
    ∧ (apiCartCheckout 0 "" none true ⟨some 0, none, none, none, none⟩ stBan0).1
        ≠ .err 403 "banned" := by
  decide

/-- C5 (amended): for every nonzero user id holding a ban record, cart
add (with a nonzero product id, the other truthiness-checked field),
clear, and checkout all fail uniformly with the Forbidden "banned" reply
and leave the state unchanged. -/
theorem C5_amended_banned_rejected (ts : Nat) (s : St) (uid : Int)
    (huid : uid ≠ 0) (hban : isBanned s.bans uid = true) :
    (∀ (pid : Int) (q : Option Int), pid ≠ 0 →
        apiCartAdd ts ⟨some uid, some pid, q⟩ s = (.err 403 "banned", s))
    ∧ apiCartClear ts ⟨some uid⟩ s = (.err 403 "banned", s)
    ∧ ∀ (nick : String) (adm : Option Int) (nOk : Bool) (c n tu tn : Option String),
        apiCartCheckout ts nick adm nOk ⟨some uid, c, n, tu, tn⟩ s
          = (.err 403 "banned", s) := by
  have hu : (uid != 0) = true := by simpa using huid
  refine ⟨?_, ?_, ?_⟩
  · intro pid q hpid
    have hp : (pid != 0) = true := by simpa using hpid
    simp [apiCartAdd, truthyInt, hu, hp, hban]
  · simp [apiCartClear, truthyInt, hu, hban]
  · intro nick adm nOk c n tu tn
    simp [apiCartCheckout, truthyInt, hu, hban]

theorem C5_amended_banned_rejected_witness :
    ((5 : Int) ≠ 0 ∧ isBanned st1.bans 5 = true ∧ (1 : Int) ≠ 0)
    ∧ apiCartAdd 0 ⟨some 5, some 1, some 2⟩ st1 = (.err 403 "banned", st1)
    ∧ apiCartClear 0 ⟨some 5⟩ st1 = (.err 403 "banned", st1)
    ∧ apiCartCheckout 0 "" none true ⟨some 5, none, none, none, none⟩ st1
        = (.err 403 "banned", st1) :=
  ⟨⟨by decide, by decide, by decide⟩,
   (C5_amended_banned_rejected 0 st1 5 (by decide) (by decide)).1 1 (some 2) (by decide),
   (C5_amended_banned_rejected 0 st1 5 (by decide) (by decide)).2.1,
   (C5_amended_banned_rejected 0 st1 5 (by decide) (by decide)).2.2 "" none true
     none none none none⟩

/-- C4 counterexample: user 8 passes the user-id and ban checks, the
checkout fails with EmptyCart, and the audit log is left empty — no
audit entry with the raw cart snapshot is recorded for this call, though
the claim says every such call records one. -/
theorem C4_counterexample_emptycart_not_logged :
    isBanned st1.bans 8 = false
    ∧ apiCartCheckout 0 "" none true ⟨some 8, none, none, none, none⟩ st1
        = (.err 400 "cart_empty", st1)
    ∧ (apiCartCheckout 0 "" none true ⟨some 8, none, none, none, none⟩ st1).2.logs
        = [] := by
  decide

/-- C4 (amended): a checkout that passes the user-id and ban checks
records the audit entry with the raw (unfiltered) cart snapshot exactly
when at least one surviving item exists; the entry is the same for every
operating mode, nick, admin chat id and delivery outcome (it is recorded
before the mode branch). A call failing with EmptyCart records nothing. -/
theorem C4_amended_audit_iff_items (ts : Nat) (nick : String) (adm : Option Int)
    (nOk : Bool) (r : CheckoutReq) (s : St) (uid : Int)
    (huser : r.user_id = some uid) (huid : uid ≠ 0)
    (hban : isBanned s.bans uid = false) :
    ((cartItems s.products ((alGet s.carts uid).getD [])).1 ≠ [] →
      (apiCartCheckout ts nick adm nOk r s).2.logs
        = logEvent s.logs ⟨ts, "checkout", some uid,
            .checkout (pyStrip (r.contact.getD "")) (pyStrip (r.note.getD ""))
              ((alGet s.carts uid).getD [])⟩)
    ∧ ((cartItems s.products ((alGet s.carts uid).getD [])).1 = [] →
      (apiCartCheckout ts nick adm nOk r s).2.logs = s.logs) := by
  have hu : (uid != 0) = true := by simpa using huid
  constructor
  · intro hitems
    obtain ⟨a, l, hcons⟩ := List.exists_cons_of_ne_nil hitems
    simp only [apiCartCheckout, huser, truthyInt, hu, Bool.not_true, Bool.false_eq_true,
      if_false, Option.getD_some, hban, hcons, List.isEmpty_cons]
  · intro hitems
    simp only [apiCartCheckout, huser, truthyInt, hu, Bool.not_true, Bool.false_eq_true,
      if_false, Option.getD_some, hban, hitems, List.isEmpty_nil, if_true]

theorem C4_amended_audit_iff_items_witness :
    (isBanned st1.bans 42 = false
      ∧ (cartItems st1.products ((alGet st1.carts 42).getD [])).1 ≠ [])
    ∧ (apiCartCheckout 3 "" none true ⟨some 42, none, none, none, none⟩ st1).2.logs
        = logEvent st1.logs ⟨3, "checkout", some 42, .checkout "" "" [(1, 2)]⟩ :=
  ⟨⟨by decide, by decide⟩, by
    have h := (C4_amended_audit_iff_items 3 "" none true ⟨some 42, none, none, none, none⟩
      st1 42 rfl (by decide) (by decide)).1 (by decide)
    rw [h]
    decide⟩



theorem applyReq_logs (ts : Nat) (q : Req) (s : St) :
    (applyReq ts q s).2.logs = s.logs
    ∨ ∃ e, (applyReq ts q s).2.logs = logEvent s.logs e := by
  cases q <;>
    simp only [applyReq, apiCategoriesPost, apiCategoryPatch, apiCategoryDelete,
      apiProductsPost, apiCartAdd, apiCartGet, apiCartClear, apiCartCheckout,
      apiBansPost, apiBansDelete, apiModePost] <;>
    (repeat' split) <;>
    first
      | exact Or.inl trivial
      | exact Or.inl rfl
      | exact Or.inr ⟨_, rfl⟩

theorem logEvent_length_le (logs : List LogEntry) (e : LogEntry)
    (h : logs.length ≤ LOG_LIMIT) : (logEvent logs e).length ≤ LOG_LIMIT := by
  simp only [logEvent, LOG_LIMIT] at h ⊢
  split
  next hgt =>
    simp only [List.length_drop, List.length_append, List.length_singleton]
    omega
  next hgt =>
    simp only [List.length_append, List.length_singleton] at hgt ⊢
    omega

theorem applySeq_logs_le (reqs : List (Nat × Req)) (s : St)
    (h : s.logs.length ≤ LOG_LIMIT) :
    (applySeq reqs s).logs.length ≤ LOG_LIMIT := by
  induction reqs generalizing s with
  | nil => exact h
  | cons r rest ih =>
    simp only [applySeq]
    apply ih
    rcases applyReq_logs r.1 r.2 s with heq | ⟨e, heq⟩
    · rw [heq]; exact h
    · rw [heq]; exact logEvent_length_le s.logs e h


/-- C8: starting from a log of at most 200 entries, any sequence of API
requests leaves the log at no more than 200 entries; and whenever an
append would push the log over the cap, `_log_event` evicts exactly the
head — the oldest entry (FIFO). -/
theorem C8_log_ring_buffer :
    (∀ (reqs : List (Nat × Req)) (s : St), s.logs.length ≤ LOG_LIMIT →
        (applySeq reqs s).logs.length ≤ LOG_LIMIT)
    ∧ (∀ (logs : List LogEntry) (e : LogEntry),
        LOG_LIMIT < (logs ++ [e]).length →
        logEvent logs e = logs.tail ++ [e]) := by
  constructor
  · exact fun reqs s h => applySeq_logs_le reqs s h
  · intro logs e h
    simp only [logEvent, if_pos h]
    cases logs with
    | nil => simp [LOG_LIMIT] at h
    | cons a l => simp

theorem C8_log_ring_buffer_witness :
    (st1.logs.length ≤ LOG_LIMIT
      ∧ (applySeq [(0, .cartClear ⟨some 9⟩)] st1).logs.length ≤ LOG_LIMIT)
    ∧ (LOG_LIMIT < (List.replicate 200 eStub ++ [eStub]).length
      ∧ logEvent (List.replicate 200 eStub) eStub
          = (List.replicate 200 eStub).tail ++ [eStub]) :=
  ⟨⟨by decide, C8_log_ring_buffer.1 [(0, .cartClear ⟨some 9⟩)] st1 (by decide)⟩,
   ⟨by simp only [List.length_append, List.length_replicate,
        List.length_singleton, LOG_LIMIT]; omega,
    C8_log_ring_buffer.2 (List.replicate 200 eStub) eStub
      (by simp only [List.length_append, List.length_replicate,
            List.length_singleton, LOG_LIMIT]; omega)⟩⟩

/-- C9 counterexample: the operating-mode set request mutates state (the
mode changes from `samootsos` to `samopis`) yet appends no log entry —
the log is unchanged — so not every state-mutating operation appends a
LogEntry as the claim states. -/
theorem C9_counterexample_mode_set_unlogged :
    (applyReq 0 (.modePost ⟨some "samopis"⟩) st1).2.mode = "samopis"
    ∧ st1.mode = "samootsos"
    ∧ (applyReq 0 (.modePost ⟨some "samopis"⟩) st1).2 ≠ st1
    ∧ (applyReq 0 (.modePost ⟨some "samopis"⟩) st1).2.logs = st1.logs := by
  decide

/-- C9 (amended): log entries are never directly deleted — after any
request the log is either untouched or extended through `_log_event`
(append, with capacity eviction only); every state-mutating operation of
the claim's list except the operating-mode set (category create, update,
delete, product create, cart add, cart clear, checkout, ban create, ban
remove) appends a LogEntry whenever it succeeds; the mode set never
logs. -/
theorem C9_amended_mutations_logged_except_mode :
    (∀ (ts : Nat) (q : Req) (s : St),
        (applyReq ts q s).2.logs = s.logs
        ∨ ∃ e, (applyReq ts q s).2.logs = logEvent s.logs e)
    ∧ (∀ (ts : Nat) (r : ModeReq) (s : St),
        (applyReq ts (.modePost r) s).2.logs = s.logs)
    ∧ (∀ (ts : Nat) (q : Req) (s : St), isMutReq q = true →
        respOk (applyReq ts q s).1 = true →
        ∃ e, (applyReq ts q s).2.logs = logEvent s.logs e) := by
  refine ⟨applyReq_logs, ?_, ?_⟩
  · intro ts r s
    simp only [applyReq, apiModePost]
    split <;> rfl
  · intro ts q s hmut hok
    cases q <;> simp only [isMutReq] at hmut <;>
      revert hok <;>
      simp only [applyReq, apiCategoriesPost, apiCategoryPatch, apiCategoryDelete,
        apiProductsPost, apiCartAdd, apiCartClear, apiCartCheckout,
        apiBansPost, apiBansDelete] <;>
      (repeat' split) <;>
      intro hok <;>
      first
        | exact absurd hmut Bool.false_ne_true
        | exact ⟨_, rfl⟩
        | simp [respOk] at hok

theorem C9_amended_mutations_logged_except_mode_witness :
    ∃ e, (applyReq 0 (.cartClear ⟨some 9⟩) st1).2.logs = logEvent st1.logs e :=
  C9_amended_mutations_logged_except_mode.2.2 0 (.cartClear ⟨some 9⟩) st1
    (by decide) (by decide)

/-! ## Archive extraction lemmas (C1) -/

theorem extractWrites_cons (root : List String) (m : ZipMember) (ms : List ZipMember) :
    extractWrites root (m :: ms) = extractWrites root [m] ++ extractWrites root ms := by
  by_cases hskip : skipMember m.name
  · simp [extractWrites, hskip]
  · by_cases hdir : endsWithSlash m.name
    · simp [extractWrites, hskip, hdir]
    · simp [extractWrites, hskip, hdir]

theorem safeExtractAux_cons_safe (root : List String) (m : ZipMember)
    (ms : List ZipMember) (hm : violatingMember root m = false)
    (acc : List FileWrite) :
    safeExtractAux root (m :: ms) acc
      = safeExtractAux root ms (acc ++ extractWrites root [m]) := by
  by_cases hskip : skipMember m.name
  · simp [safeExtractAux, extractWrites, hskip]
  · by_cases hun : unsafeName m.name
    · exfalso
      simp [violatingMember, hskip, hun] at hm
    · have hpref : root.isPrefixOf (root ++ pathParts m.name) = true :=
        List.isPrefixOf_iff_prefix.2 (List.prefix_append root (pathParts m.name))
      by_cases hdir : endsWithSlash m.name
      · simp [safeExtractAux, extractWrites, hskip, hun, hpref, hdir]
      · simp [safeExtractAux, extractWrites, hskip, hun, hpref, hdir]

theorem safeExtractAux_ok (root : List String) (ms : List ZipMember)
    (h : ∀ m ∈ ms, violatingMember root m = false) :
    ∀ acc, safeExtractAux root ms acc = .ok (acc ++ extractWrites root ms) := by
  induction ms with
  | nil => intro acc; simp [safeExtractAux, extractWrites]
  | cons m rest ih =>
    intro acc
    rw [safeExtractAux_cons_safe root m rest (h m (List.mem_cons_self m rest)) acc,
        ih (fun x hx => h x (List.mem_cons_of_mem m hx)),
        extractWrites_cons root m rest, List.append_assoc]

theorem safeExtractAux_error (root : List String) (pre : List ZipMember)
    (v : ZipMember) (post : List ZipMember)
    (hpre : ∀ m ∈ pre, violatingMember root m = false)
    (hv : violatingMember root v = true) :
    ∀ acc, safeExtractAux root (pre ++ v :: post) acc
      = .error (acc ++ extractWrites root pre) := by
  induction pre with
  | nil =>
    intro acc
    have hskip : skipMember v.name = false := by
      by_cases h : skipMember v.name
      · exfalso; simp [violatingMember, h] at hv
      · simpa using h
    by_cases hun : unsafeName v.name
    · simp [safeExtractAux, extractWrites, hskip, hun]
    · have hnp : root.isPrefixOf (root ++ pathParts v.name) = false := by
        cases hp : root.isPrefixOf (root ++ pathParts v.name) with
        | false => rfl
        | true => exfalso; simp [violatingMember, hskip, hun, hp] at hv
      simp [safeExtractAux, extractWrites, hskip, hun, hnp]
  | cons m rest ih =>
    intro acc
    rw [List.cons_append,
        safeExtractAux_cons_safe root m (rest ++ v :: post)
          (hpre m (List.mem_cons_self m rest)) acc,
        ih (fun x hx => hpre x (List.mem_cons_of_mem m hx)),
        extractWrites_cons root m rest, List.append_assoc]

theorem exists_first_violating (root : List String) (ms : List ZipMember)
    (h : ∃ m ∈ ms, violatingMember root m = true) :
    ∃ pre v post, ms = pre ++ v :: post ∧ violatingMember root v = true
      ∧ ∀ m ∈ pre, violatingMember root m = false := by
  induction ms with
  | nil => simp at h
  | cons m rest ih =>
    by_cases hm : violatingMember root m = true
    · exact ⟨[], m, rest, by simp, hm, by simp⟩
    · have hrest : ∃ x ∈ rest, violatingMember root x = true := by
        rcases h with ⟨x, hx, hviol⟩
        rcases List.mem_cons.1 hx with rfl | hx'
        · exact absurd hviol hm
        · exact ⟨x, hx', hviol⟩
      obtain ⟨pre, v, post, heq, hv, hpre⟩ := ih hrest
      refine ⟨m :: pre, v, post, by simp [heq], hv, ?_⟩
      intro x hx
      rcases List.mem_cons.1 hx with rfl | hx'
      · simpa using hm
      · exact hpre x hx'

theorem extractWrites_under_root (root : List String) (ms : List ZipMember) :
    ∀ w ∈ extractWrites root ms, root.isPrefixOf w.path = true := by
  induction ms with
  | nil => simp [extractWrites]
  | cons m rest ih =>
    intro w hw
    rw [extractWrites_cons] at hw
    rcases List.mem_append.1 hw with hw1 | hw2
    · by_cases hskip : skipMember m.name
      · simp [extractWrites, hskip] at hw1
      · by_cases hdir : endsWithSlash m.name
        · simp [extractWrites, hskip, hdir] at hw1
        · simp only [extractWrites, hskip, hdir, Bool.false_eq_true, if_false,
            List.mem_singleton] at hw1
          subst hw1
          exact List.isPrefixOf_iff_prefix.2 (List.prefix_append root (pathParts m.name))
    · exact ih w hw2



/-- C1 counterexample: `archBad` holds an entry with a parent-directory
segment, and the import does abort with the ArchiveError reply
(`extract_failed`), but the entry preceding the violation has already
been written into the data root — the written file set is not empty, so
"no entries of that archive are written" fails (and the pre-existing
data-root contents were already cleared before validation). -/
theorem C1_counterexample_partial_write :
    violatingMember dataRoot ⟨"../evil.txt", "y"⟩ = true
    ∧ dataUpload dataRoot [] archBad
        = (false, [⟨["srv", "data", "a.txt"], "x"⟩])
    ∧ ([⟨["srv", "data", "a.txt"], "x"⟩] : List FileWrite) ≠ [] := by
  decide

/-- C1 (amended): whenever an archive holds a violating entry (absolute
path, parent-directory segment, or resolved destination outside the data
root), extraction aborts with the ArchiveError at the first such entry:
the files written are exactly those of the non-violating entries that
precede it — in particular no part of the violating entry itself is
applied, and every written destination lies under the data root — but
entries before the first violation are already written (and the data
root was cleared first), not "no entries" as originally stated. -/
theorem C1_amended_first_violation_aborts (root : List String)
    (ms : List ZipMember) (h : ∃ m ∈ ms, violatingMember root m = true) :
    ∃ pre v post, ms = pre ++ v :: post
      ∧ violatingMember root v = true
      ∧ (∀ m ∈ pre, violatingMember root m = false)
      ∧ safeExtract root ms = .error (extractWrites root pre)
      ∧ ∀ w ∈ extractWrites root pre, root.isPrefixOf w.path = true := by
  obtain ⟨pre, v, post, heq, hv, hpre⟩ := exists_first_violating root ms h
  refine ⟨pre, v, post, heq, hv, hpre, ?_, extractWrites_under_root root pre⟩
  rw [heq]
  simpa [safeExtract] using safeExtractAux_error root pre v post hpre hv []

theorem C1_amended_first_violation_aborts_witness :
    ∃ pre v post, archBad = pre ++ v :: post
      ∧ violatingMember dataRoot v = true
      ∧ (∀ m ∈ pre, violatingMember dataRoot m = false)
      ∧ safeExtract dataRoot archBad = .error (extractWrites dataRoot pre)
      ∧ ∀ w ∈ extractWrites dataRoot pre, dataRoot.isPrefixOf w.path = true :=
  C1_amended_first_violation_aborts dataRoot archBad
    ⟨⟨"../evil.txt", "y"⟩, by decide, by decide⟩

end Shop
